import Mathlib

/-!
Verification of the isometric projection and rendering engine of the
snake-game repository (src/src/main.ts), as a shallow embedding in Lean.

The mutable fields of the `SnakeGame` class that feed the projection
(`isoAngle`, `perspectiveRatio`, `perspectiveStrength`, `gridSize`, and the
window width read by `getIsoWidth`) are gathered into a configuration
record `Cfg`; every quantity that `updateCanvasSize` recomputes from them
(basis vectors, raw corner extrema, focal length, canvas size, origin
offset, projection cache) becomes a function of `Cfg`, and `toIso`,
`getBlockHeight`, `drawGridLines`, `drawBlock`'s face classification and
`draw`'s depth sort are translated directly from the source.  Floating
point numbers are modelled as real numbers; `Infinity` (the focal length
sentinel) is modelled by `Option ℝ` with `none` standing for infinity.
-/

open Classical

/-- Constant `ISO_MIN_WIDTH = 300` from the source. -/
def ISO_MIN_WIDTH : ℝ := 300

/-- Constant `ISO_MAX_WIDTH = 1200` from the source. -/
def ISO_MAX_WIDTH : ℝ := 1200

/-- The projection-relevant state of the `SnakeGame` class. -/
structure Cfg where
  isoAngle : ℝ
  perspectiveRatio : ℝ
  perspectiveStrength : ℝ
  gridSize : ℕ
  windowInnerWidth : ℝ

/-- Translation of `getIsoWidth`:
`Math.max(ISO_MIN_WIDTH, Math.min(window.innerWidth - 70, ISO_MAX_WIDTH))`. -/
noncomputable def getIsoWidth (windowInnerWidth : ℝ) : ℝ :=
  max ISO_MIN_WIDTH (min (windowInnerWidth - 70) ISO_MAX_WIDTH)

/-- The `isoWidth` local of `updateCanvasSize`. -/
noncomputable def isoWidth (cfg : Cfg) : ℝ :=
  getIsoWidth cfg.windowInnerWidth

/-- The `scale` local of `updateCanvasSize`: `isoWidth / (gridSize * Math.SQRT2)`. -/
noncomputable def scale (cfg : Cfg) : ℝ :=
  isoWidth cfg / ((cfg.gridSize : ℝ) * Real.sqrt 2)

/-- Field `basisXx = cosA * scale`. -/
noncomputable def basisXx (cfg : Cfg) : ℝ :=
  Real.cos cfg.isoAngle * scale cfg

/-- Field `basisXy = sinA * scale * pr`. -/
noncomputable def basisXy (cfg : Cfg) : ℝ :=
  Real.sin cfg.isoAngle * scale cfg * cfg.perspectiveRatio

/-- Field `basisYx = -sinA * scale`. -/
noncomputable def basisYx (cfg : Cfg) : ℝ :=
  -Real.sin cfg.isoAngle * scale cfg

/-- Field `basisYy = cosA * scale * pr`. -/
noncomputable def basisYy (cfg : Cfg) : ℝ :=
  Real.cos cfg.isoAngle * scale cfg * cfg.perspectiveRatio

/-- Field `baseBlockHeight = scale * pr * Math.SQRT2 * 0.6`. -/
noncomputable def baseBlockHeight (cfg : Cfg) : ℝ :=
  scale cfg * cfg.perspectiveRatio * Real.sqrt 2 * 0.6

/-- Field `rawMaxY`: `Math.max` of the y components of the four raw corners
`(0,0)`, `(N*basisXx, N*basisXy)`, `(N*basisYx, N*basisYy)`,
`(N*(basisXx+basisYx), N*(basisXy+basisYy))`. -/
noncomputable def rawMaxY (cfg : Cfg) : ℝ :=
  max (max 0 ((cfg.gridSize : ℝ) * basisXy cfg))
    (max ((cfg.gridSize : ℝ) * basisYy cfg)
      ((cfg.gridSize : ℝ) * (basisXy cfg + basisYy cfg)))

/-- The `rawMinY` local of `updateCanvasSize`: `Math.min` of the corner ys. -/
noncomputable def rawMinY (cfg : Cfg) : ℝ :=
  min (min 0 ((cfg.gridSize : ℝ) * basisXy cfg))
    (min ((cfg.gridSize : ℝ) * basisYy cfg)
      ((cfg.gridSize : ℝ) * (basisXy cfg + basisYy cfg)))

/-- Field `rawCenterX`: midpoint of min and max of the corner xs. -/
noncomputable def rawCenterX (cfg : Cfg) : ℝ :=
  (min (min 0 ((cfg.gridSize : ℝ) * basisXx cfg))
      (min ((cfg.gridSize : ℝ) * basisYx cfg)
        ((cfg.gridSize : ℝ) * (basisXx cfg + basisYx cfg))) +
    max (max 0 ((cfg.gridSize : ℝ) * basisXx cfg))
      (max ((cfg.gridSize : ℝ) * basisYx cfg)
        ((cfg.gridSize : ℝ) * (basisXx cfg + basisYx cfg)))) / 2

/-- The `depthRange` local: `Math.max(rawMaxY - rawMinY, 0.001)`. -/
noncomputable def depthRange (cfg : Cfg) : ℝ :=
  max (rawMaxY cfg - rawMinY cfg) 0.001

/-- Field `focalLength`: `perspectiveStrength > 0 ? depthRange / perspectiveStrength
: Infinity`, with `none` standing for `Infinity`. -/
noncomputable def focalLength (cfg : Cfg) : Option ℝ :=
  if 0 < cfg.perspectiveStrength then some (depthRange cfg / cfg.perspectiveStrength)
  else none

/-- The perspective scale used by `toIso` and `getBlockHeight`:
`focalLength === Infinity ? 1 : focalLength / (focalLength + d)`. -/
noncomputable def persScale (cfg : Cfg) (d : ℝ) : ℝ :=
  match focalLength cfg with
  | none => 1
  | some f => f / (f + d)

/-- Canvas width set by `updateCanvasSize`: `isoWidth + padding * 2` with
`padding = 20`. -/
noncomputable def canvasWidth (cfg : Cfg) : ℝ :=
  isoWidth cfg + 20 * 2

/-- Canvas height set by `updateCanvasSize`:
`isoWidth * pr + padding * 2 + baseBlockHeight`. -/
noncomputable def canvasHeight (cfg : Cfg) : ℝ :=
  isoWidth cfg * cfg.perspectiveRatio + 20 * 2 + baseBlockHeight cfg

/-- The `gcRawX` local: `half * (basisXx + basisYx)` with `half = gridSize / 2`. -/
noncomputable def gcRawX (cfg : Cfg) : ℝ :=
  (cfg.gridSize : ℝ) / 2 * (basisXx cfg + basisYx cfg)

/-- The `gcRawY` local: `half * (basisXy + basisYy)`. -/
noncomputable def gcRawY (cfg : Cfg) : ℝ :=
  (cfg.gridSize : ℝ) / 2 * (basisXy cfg + basisYy cfg)

/-- The `gcD` local: `rawMaxY - gcRawY`. -/
noncomputable def gcD (cfg : Cfg) : ℝ :=
  rawMaxY cfg - gcRawY cfg

/-- The `gcS` local: the perspective scale at the grid center's depth. -/
noncomputable def gcS (cfg : Cfg) : ℝ :=
  persScale cfg (gcD cfg)

/-- The `gcProjX` local: `rawCenterX + (gcRawX - rawCenterX) * gcS`. -/
noncomputable def gcProjX (cfg : Cfg) : ℝ :=
  rawCenterX cfg + (gcRawX cfg - rawCenterX cfg) * gcS cfg

/-- The `gcProjY` local: `rawMaxY - gcD * gcS`. -/
noncomputable def gcProjY (cfg : Cfg) : ℝ :=
  rawMaxY cfg - gcD cfg * gcS cfg

/-- Field `isoOriginX = canvas.width / 2 - gcProjX`. -/
noncomputable def isoOriginX (cfg : Cfg) : ℝ :=
  canvasWidth cfg / 2 - gcProjX cfg

/-- Field `isoOriginY = canvas.height / 2 - gcProjY`. -/
noncomputable def isoOriginY (cfg : Cfg) : ℝ :=
  canvasHeight cfg / 2 - gcProjY cfg

/-- Translation of `toIso(gridX, gridY)`. -/
noncomputable def toIso (cfg : Cfg) (gx gy : ℝ) : ℝ × ℝ :=
  (rawCenterX cfg +
      (gx * basisXx cfg + gy * basisYx cfg - rawCenterX cfg) *
        persScale cfg (rawMaxY cfg - (gx * basisXy cfg + gy * basisYy cfg)) +
    isoOriginX cfg,
   rawMaxY cfg -
      (rawMaxY cfg - (gx * basisXy cfg + gy * basisYy cfg)) *
        persScale cfg (rawMaxY cfg - (gx * basisXy cfg + gy * basisYy cfg)) +
    isoOriginY cfg)

/-- The projection cache rebuilt at the end of `updateCanvasSize`:
`isoCache[gy][gx] = toIso(gx, gy)` for `0 ≤ gx, gy ≤ gridSize`. -/
noncomputable def isoCache (cfg : Cfg) : List (List (ℝ × ℝ)) :=
  (List.range (cfg.gridSize + 1)).map fun gy : ℕ =>
    (List.range (cfg.gridSize + 1)).map fun gx : ℕ =>
      toIso cfg (gx : ℝ) (gy : ℝ)

/-- Translation of `getBlockHeight(gx, gy)`. -/
noncomputable def getBlockHeight (cfg : Cfg) (gx gy : ℝ) : ℝ :=
  match focalLength cfg with
  | none => baseBlockHeight cfg
  | some f =>
      baseBlockHeight cfg *
        (f / (f + (rawMaxY cfg -
          ((gx + 0.5) * basisXy cfg + (gy + 0.5) * basisYy cfg))))

/-- Translation of `drawGridLines` as the list of line segments stroked:
it returns early (no segments) when `|basisXx| + |basisYx| < 5`, otherwise
one segment per `gy` from `isoCache[gy][0]` to `isoCache[gy][gridSize]`
followed by one per `gx` from `isoCache[0][gx]` to `isoCache[gridSize][gx]`. -/
noncomputable def drawGridLines (cfg : Cfg) : List ((ℝ × ℝ) × (ℝ × ℝ)) :=
  if |basisXx cfg| + |basisYx cfg| < 5 then []
  else
    ((List.range (cfg.gridSize + 1)).map fun gy =>
      (((isoCache cfg).getD gy []).getD 0 (0, 0),
       ((isoCache cfg).getD gy []).getD cfg.gridSize (0, 0))) ++
    ((List.range (cfg.gridSize + 1)).map fun gx =>
      (((isoCache cfg).getD 0 []).getD gx (0, 0),
       ((isoCache cfg).getD cfg.gridSize []).getD gx (0, 0)))

/-- The four inset ground corners computed at the top of `drawBlock`
(`inset = 0.05`; clockwise TL, TR, BR, BL). -/
noncomputable def blockCorner (cfg : Cfg) (gx gy : ℝ) : ℕ → ℝ × ℝ
  | 0 => toIso cfg (gx + 0.05) (gy + 0.05)
  | 1 => toIso cfg (gx + 1 - 0.05) (gy + 0.05)
  | 2 => toIso cfg (gx + 1 - 0.05) (gy + 1 - 0.05)
  | _ => toIso cfg (gx + 0.05) (gy + 1 - 0.05)

/-- The loop condition `a.x > b.x` of `drawBlock` classifying edge `i` as
front-facing. -/
noncomputable def edgeFront (cfg : Cfg) (gx gy : ℝ) (i : ℕ) : Bool :=
  decide ((blockCorner cfg gx gy ((i + 1) % 4)).1 < (blockCorner cfg gx gy i).1)

/-- The loop condition `a.x < b.x` of `drawBlock` classifying edge `i` as
back-facing. -/
noncomputable def edgeBack (cfg : Cfg) (gx gy : ℝ) (i : ℕ) : Bool :=
  decide ((blockCorner cfg gx gy i).1 < (blockCorner cfg gx gy ((i + 1) % 4)).1)

/-- The `frontFaces` array of `drawBlock`: indices `i < 4` with
`c[i].x > c[(i+1) % 4].x`. -/
noncomputable def frontFaces (cfg : Cfg) (gx gy : ℝ) : List ℕ :=
  (List.range 4).filter (edgeFront cfg gx gy)

/-- The `backFaces` array of `drawBlock`: indices `i < 4` with
`c[i].x < c[(i+1) % 4].x`. -/
noncomputable def backFaces (cfg : Cfg) (gx gy : ℝ) : List ℕ :=
  (List.range 4).filter (edgeBack cfg gx gy)

/-- The kind tag of a renderable object collected by `draw`. -/
inductive ObjType
  | head
  | body
  | food
deriving DecidableEq

/-- A renderable object `{x, y, type}` collected by `draw`. -/
structure RObj where
  x : ℝ
  y : ℝ
  type : ObjType

/-- The sort key of `draw`'s depth sort: `x * basisXy + y * basisYy`. -/
noncomputable def sortKey (cfg : Cfg) (o : RObj) : ℝ :=
  o.x * basisXy cfg + o.y * basisYy cfg

/-- Object collection in `draw`: every snake segment (index 0 tagged `head`,
the rest `body`) in order, then the food. -/
def collectObjects (snake : List (ℝ × ℝ)) (food : ℝ × ℝ) : List RObj :=
  (snake.enum.map fun ia =>
    ⟨ia.2.1, ia.2.2, if ia.1 = 0 then ObjType.head else ObjType.body⟩) ++
  [⟨food.1, food.2, ObjType.food⟩]

/-- Insertion into a list already sorted ascending by the depth-sort key. -/
noncomputable def insertByKey (cfg : Cfg) (o : RObj) : List RObj → List RObj
  | [] => [o]
  | p :: ps =>
      if sortKey cfg o ≤ sortKey cfg p then o :: p :: ps
      else p :: insertByKey cfg o ps

/-- The depth sort of `draw`: `objects.sort((a, b) => keyA - keyB)`, i.e.
sorting ascending by `sortKey`, modelled as insertion sort. -/
noncomputable def sortObjects (cfg : Cfg) : List RObj → List RObj
  | [] => []
  | o :: os => insertByKey cfg o (sortObjects cfg os)

/-- Movement direction of the snake. -/
inductive Direction
  | UP
  | DOWN
  | LEFT
  | RIGHT
deriving DecidableEq

/-- The game-state fields of the `SnakeGame` class touched by `update`. -/
structure GameState where
  snake : List (ℤ × ℤ)
  food : ℤ × ℤ
  direction : Direction
  nextDirection : Direction
  gridSize : ℤ
  score : ℤ
  level : ℤ
  gameSpeed : ℚ
  isPaused : Bool
  isGameOver : Bool

/-- Translation of `checkCollision(head)`. -/
def checkCollision (s : GameState) (head : ℤ × ℤ) : Bool :=
  if head.1 < 0 ∨ s.gridSize ≤ head.1 ∨ head.2 < 0 ∨ s.gridSize ≤ head.2 then true
  else s.snake.any fun seg => seg.1 = head.1 && seg.2 = head.2

/-- The head displacement of `update`'s `switch` on the direction. -/
def moveHead : Direction → ℤ × ℤ → ℤ × ℤ
  | Direction.UP, p => (p.1, p.2 - 1)
  | Direction.DOWN, p => (p.1, p.2 + 1)
  | Direction.LEFT, p => (p.1 - 1, p.2)
  | Direction.RIGHT, p => (p.1 + 1, p.2)

/-- The state change of `endGame` on the game state (DOM and high-score
side effects are outside the model). -/
def endGame (s : GameState) : GameState :=
  { s with isGameOver := true }

/-- Translation of `spawnFood`; its randomized retry loop is modelled by
passing the resulting position as the `newFood` parameter. -/
def spawnFood (s : GameState) (newFood : ℤ × ℤ) : GameState :=
  { s with food := newFood }

/-- Translation of `expandGrid` (timer re-arm and canvas recompute are
outside the game-state model). -/
def expandGrid (s : GameState) (newFood : ℤ × ℤ) : GameState :=
  spawnFood
    { s with gridSize := s.gridSize * 2, level := s.level + 1,
             gameSpeed := s.gameSpeed / 2 }
    newFood

/-- Translation of `checkGridExpansion`: expand when
`snake.length / (gridSize * gridSize) >= 0.25`. -/
def checkGridExpansion (s : GameState) (newFood : ℤ × ℤ) : GameState :=
  if (1 / 4 : ℚ) ≤ (s.snake.length : ℚ) / ((s.gridSize : ℚ) * (s.gridSize : ℚ))
  then expandGrid s newFood
  else s

/-- Translation of `update` (one game tick); the two potential `spawnFood`
call sites receive their random results as parameters. -/
def update (s : GameState) (newFood newFood2 : ℤ × ℤ) : GameState :=
  if s.isPaused || s.isGameOver then s
  else
    let s1 := { s with direction := s.nextDirection }
    let head := moveHead s1.direction s1.snake.headI
    if checkCollision s1 head then endGame s1
    else
      let s2 := { s1 with snake := head :: s1.snake }
      if head = s2.food then
        checkGridExpansion (spawnFood { s2 with score := s2.score + 1 } newFood) newFood2
      else { s2 with snake := s2.snake.dropLast }

/-- A position lies inside the `[0, gridSize) × [0, gridSize)` play field. -/
def inBounds (gridSize : ℤ) (p : ℤ × ℤ) : Prop :=
  0 ≤ p.1 ∧ p.1 < gridSize ∧ 0 ≤ p.2 ∧ p.2 < gridSize

instance (gridSize : ℤ) (p : ℤ × ℤ) : Decidable (inBounds gridSize p) :=
  inferInstanceAs (Decidable (0 ≤ p.1 ∧ p.1 < gridSize ∧ 0 ≤ p.2 ∧ p.2 < gridSize))

/-- A concrete configuration used to instantiate universally quantified
theorems: angle `0`, the source's `perspectiveRatio = 0.5`, strength `0.4`,
grid size `10`, window width `1000`. -/
noncomputable def cfgW1 : Cfg := ⟨0, 1 / 2, 2 / 5, 10, 1000⟩

/-- A concrete configuration at angle `2 * arctan (1/10)` (so that
`cos = 99/101` and `sin = 20/101` are rational), perspective strength
`0.8`, grid size `5`: used to exhibit a 1-front/3-back face classification. -/
noncomputable def cfgC2 : Cfg := ⟨2 * Real.arctan (1 / 10), 1 / 2, 4 / 5, 5, 1070⟩

/-- A concrete configuration with perspective disabled (strength `0`) at
angle `π/3`. -/
noncomputable def cfgOrtho : Cfg := ⟨Real.pi / 3, 1 / 2, 0, 10, 1000⟩

/-- A concrete configuration with a dense grid (`100 × 100` at the minimum
viewport width), putting the on-screen tile width below the 5-pixel
grid-line threshold. -/
noncomputable def cfgDense : Cfg := ⟨0, 1 / 2, 2 / 5, 100, 370⟩

/-- A concrete game state: one-segment snake at `(2,2)` on a `10 × 10`
grid, food at `(5,5)`, heading right. -/
def gs0 : GameState :=
  ⟨[(2, 2)], (5, 5), Direction.RIGHT, Direction.RIGHT, 10, 0, 1, 200, false, false⟩

/-- The viewport width is always at least `ISO_MIN_WIDTH`. -/
lemma isoWidth_ge (cfg : Cfg) : ISO_MIN_WIDTH ≤ isoWidth cfg :=
  le_max_left _ _

/-- The derived scale is positive on any nonempty grid. -/
lemma scale_pos (cfg : Cfg) (hN : 0 < cfg.gridSize) : 0 < scale cfg := by
  have h1 : (0 : ℝ) < isoWidth cfg :=
    lt_of_lt_of_le (by norm_num [ISO_MIN_WIDTH]) (isoWidth_ge cfg)
  have h2 : (0 : ℝ) < (cfg.gridSize : ℝ) * Real.sqrt 2 :=
    mul_pos (by exact_mod_cast hN) (Real.sqrt_pos.2 (by norm_num))
  exact div_pos h1 h2

/-- C1: after `updateCanvasSize`, for every rotation angle, perspective
strength in `[0, 0.8]`, positive grid size and window width,
`toIso (gridSize/2, gridSize/2)` is exactly the canvas pixel center. -/
theorem c1_grid_center_lands_at_canvas_center (cfg : Cfg)
    (hN : 0 < cfg.gridSize) (hst0 : 0 ≤ cfg.perspectiveStrength)
    (hst1 : cfg.perspectiveStrength ≤ 0.8) :
    toIso cfg ((cfg.gridSize : ℝ) / 2) ((cfg.gridSize : ℝ) / 2) =
      (canvasWidth cfg / 2, canvasHeight cfg / 2) := by
  have hy : (cfg.gridSize : ℝ) / 2 * basisXy cfg +
      (cfg.gridSize : ℝ) / 2 * basisYy cfg = gcRawY cfg := by
    unfold gcRawY; ring
  unfold toIso
  rw [hy]
  unfold isoOriginX isoOriginY gcProjX gcProjY gcRawX gcS gcD
  rw [Prod.mk.injEq]
  constructor <;> ring

/-- Witness for C1 at a concrete configuration. -/
theorem c1_grid_center_lands_at_canvas_center_witness :
    0 < cfgW1.gridSize ∧ (0 : ℝ) ≤ cfgW1.perspectiveStrength ∧
      cfgW1.perspectiveStrength ≤ 0.8 ∧
      toIso cfgW1 ((cfgW1.gridSize : ℝ) / 2) ((cfgW1.gridSize : ℝ) / 2) =
        (canvasWidth cfgW1 / 2, canvasHeight cfgW1 / 2) :=
  ⟨by norm_num [cfgW1], by norm_num [cfgW1], by norm_num [cfgW1],
    c1_grid_center_lands_at_canvas_center cfgW1 (by norm_num [cfgW1])
      (by norm_num [cfgW1]) (by norm_num [cfgW1])⟩

/-- C5: with perspective strength `0` the focal length is infinite and
`toIso` degenerates to the pure affine transform plus origin offset. -/
theorem c5_zero_strength_is_affine (cfg : Cfg)
    (hst : cfg.perspectiveStrength = 0) (gx gy : ℝ) :
    toIso cfg gx gy =
      (gx * basisXx cfg + gy * basisYx cfg + isoOriginX cfg,
       gx * basisXy cfg + gy * basisYy cfg + isoOriginY cfg) := by
  have hlt : ¬ (0 : ℝ) < cfg.perspectiveStrength := by
    rw [hst]; exact lt_irrefl 0
  have hf : focalLength cfg = none := by
    unfold focalLength; exact if_neg hlt
  have hp : ∀ d, persScale cfg d = 1 := by
    intro d; unfold persScale; rw [hf]
  unfold toIso
  simp only [hp]
  rw [Prod.mk.injEq]
  constructor <;> ring

/-- Witness for C5 at a concrete configuration and input. -/
theorem c5_zero_strength_is_affine_witness :
    cfgOrtho.perspectiveStrength = 0 ∧
      toIso cfgOrtho 3 7 =
        (3 * basisXx cfgOrtho + 7 * basisYx cfgOrtho + isoOriginX cfgOrtho,
         3 * basisXy cfgOrtho + 7 * basisYy cfgOrtho + isoOriginY cfgOrtho) :=
  ⟨rfl, c5_zero_strength_is_affine cfgOrtho rfl 3 7⟩

/-- C7: the canvas pixel dimensions do not depend on the rotation angle;
two configurations differing only in angle produce identical canvas width
and height. -/
theorem c7_canvas_size_ignores_rotation (A1 A2 pr st : ℝ) (N : ℕ) (W : ℝ) :
    canvasWidth ⟨A1, pr, st, N, W⟩ = canvasWidth ⟨A2, pr, st, N, W⟩ ∧
      canvasHeight ⟨A1, pr, st, N, W⟩ = canvasHeight ⟨A2, pr, st, N, W⟩ :=
  ⟨rfl, rfl⟩

/-- C8: the rebuilt projection cache has `gridSize + 1` rows of
`gridSize + 1` entries, and entry `[gy][gx]` is `toIso gx gy` in the
post-update state. -/
theorem c8_cache_dimensions_and_entries (cfg : Cfg) (hN : 0 < cfg.gridSize)
    (gx gy : ℕ) (hx : gx ≤ cfg.gridSize) (hy : gy ≤ cfg.gridSize) :
    (isoCache cfg).length = cfg.gridSize + 1 ∧
      ((isoCache cfg).getD gy []).length = cfg.gridSize + 1 ∧
      ((isoCache cfg).getD gy []).getD gx (0, 0) =
        toIso cfg (gx : ℝ) (gy : ℝ) := by
  have hy' : gy < cfg.gridSize + 1 := Nat.lt_succ_of_le hy
  have hx' : gx < cfg.gridSize + 1 := Nat.lt_succ_of_le hx
  have hrow : (isoCache cfg).getD gy [] =
      (List.range (cfg.gridSize + 1)).map fun gx' : ℕ =>
        toIso cfg (gx' : ℝ) (gy : ℝ) := by
    unfold isoCache
    rw [List.getD_eq_getElem?_getD, List.getElem?_map, List.getElem?_range hy']
    rfl
  refine ⟨?_, ?_, ?_⟩
  · unfold isoCache
    rw [List.length_map, List.length_range]
  · rw [hrow, List.length_map, List.length_range]
  · rw [hrow, List.getD_eq_getElem?_getD, List.getElem?_map,
      List.getElem?_range hx']
    rfl

/-- Witness for C8 at a concrete configuration and indices. -/
theorem c8_cache_dimensions_and_entries_witness :
    0 < cfgW1.gridSize ∧ 3 ≤ cfgW1.gridSize ∧ 7 ≤ cfgW1.gridSize ∧
      ((isoCache cfgW1).length = cfgW1.gridSize + 1 ∧
        ((isoCache cfgW1).getD 7 []).length = cfgW1.gridSize + 1 ∧
        ((isoCache cfgW1).getD 7 []).getD 3 (0, 0) =
          toIso cfgW1 ((3 : ℕ) : ℝ) ((7 : ℕ) : ℝ)) :=
  ⟨by norm_num [cfgW1], by norm_num [cfgW1], by norm_num [cfgW1],
    c8_cache_dimensions_and_entries cfgW1 (by norm_num [cfgW1]) 3 7
      (by norm_num [cfgW1]) (by norm_num [cfgW1])⟩

/-- C9: below the 5-pixel on-screen tile width threshold `drawGridLines`
draws nothing; at or above it, it draws `gridSize + 1` lines along each of
the two axes. -/
theorem c9_gridline_threshold (cfg : Cfg) :
    (|basisXx cfg| + |basisYx cfg| < 5 → drawGridLines cfg = []) ∧
      (¬ |basisXx cfg| + |basisYx cfg| < 5 →
        (drawGridLines cfg).length = 2 * (cfg.gridSize + 1)) := by
  constructor
  · intro h
    unfold drawGridLines
    exact if_pos h
  · intro h
    unfold drawGridLines
    rw [if_neg h, List.length_append, List.length_map, List.length_map,
      List.length_range]
    ring

/-- A head that passes `checkCollision` with result `false` lies inside the
grid. -/
lemma inBounds_of_checkCollision_false (s : GameState) (hd : ℤ × ℤ)
    (h : checkCollision s hd = false) : inBounds s.gridSize hd := by
  unfold checkCollision at h
  by_cases hc : hd.1 < 0 ∨ s.gridSize ≤ hd.1 ∨ hd.2 < 0 ∨ s.gridSize ≤ hd.2
  · rw [if_pos hc] at h
    exact absurd h (by simp)
  · push_neg at hc
    exact hc

/-- C10: if every snake segment is inside `[0, gridSize)²` before a tick,
every segment is still inside the (possibly expanded) grid after `update`;
an out-of-grid or self-colliding head triggers `endGame` before being
added. -/
theorem c10_update_keeps_snake_in_grid (s : GameState) (nf nf2 : ℤ × ℤ)
    (h : ∀ p ∈ s.snake, inBounds s.gridSize p) :
    ∀ p ∈ (update s nf nf2).snake, inBounds (update s nf nf2).gridSize p := by
  intro p hp
  simp only [update] at hp ⊢
  split_ifs at hp ⊢ with h1 h2 h3
  · exact h p hp
  · simp only [endGame] at hp ⊢
    exact h p hp
  all_goals
    have hcol : checkCollision { s with direction := s.nextDirection }
        (moveHead s.nextDirection s.snake.headI) = false := by
      simpa using h2
  all_goals
    have hhd : inBounds s.gridSize (moveHead s.nextDirection s.snake.headI) :=
      inBounds_of_checkCollision_false _ _ hcol
  all_goals
    have hNpos : 0 < s.gridSize := lt_of_le_of_lt hhd.1 hhd.2.1
  · simp only [checkGridExpansion, expandGrid, spawnFood] at hp ⊢
    split_ifs at hp ⊢ with h4
    · dsimp only at hp ⊢
      simp only [List.mem_cons] at hp
      rcases hp with rfl | hp
      · exact ⟨hhd.1, by linarith [hhd.2.1], hhd.2.2.1, by linarith [hhd.2.2.2]⟩
      · obtain ⟨a1, a2, a3, a4⟩ := h p hp
        exact ⟨a1, by linarith, a3, by linarith⟩
    · dsimp only at hp ⊢
      simp only [List.mem_cons] at hp
      rcases hp with rfl | hp
      · exact hhd
      · exact h p hp
  · dsimp only at hp ⊢
    have hp' : p ∈ moveHead s.nextDirection s.snake.headI :: s.snake :=
      List.dropLast_subset _ hp
    simp only [List.mem_cons] at hp'
    rcases hp' with rfl | hp'
    · exact hhd
    · exact h p hp'

/-- Witness for C10 at a concrete game state. -/
theorem c10_update_keeps_snake_in_grid_witness :
    (∀ p ∈ gs0.snake, inBounds gs0.gridSize p) ∧
      ∀ p ∈ (update gs0 (1, 1) (3, 3)).snake,
        inBounds (update gs0 (1, 1) (3, 3)).gridSize p :=
  ⟨by decide, c10_update_keeps_snake_in_grid gs0 (1, 1) (3, 3) (by decide)⟩

/-- C6: at rotation `π/3` the depth sort over food `(0,0)`, head `(9,9)`,
body `(5,5)` — collected in source order head, body, food — produces the
draw order food, body, head. -/
theorem c6_depth_sort_order (W : ℝ) :
    sortObjects ⟨Real.pi / 3, 1 / 2, 2 / 5, 10, W⟩
        (collectObjects [(9, 9), (5, 5)] (0, 0)) =
      [⟨0, 0, ObjType.food⟩, ⟨5, 5, ObjType.body⟩, ⟨9, 9, ObjType.head⟩] := by
  set cfg : Cfg := ⟨Real.pi / 3, 1 / 2, 2 / 5, 10, W⟩ with hcfg
  have hS : 0 < scale cfg := scale_pos cfg (by rw [hcfg]; norm_num)
  have hsum : 0 < basisXy cfg + basisYy cfg := by
    unfold basisXy basisYy
    rw [hcfg]
    simp only [Real.sin_pi_div_three, Real.cos_pi_div_three]
    have h3 : 0 < Real.sqrt 3 := Real.sqrt_pos.2 (by norm_num)
    rw [hcfg] at hS
    nlinarith [hS, h3]
  have hobjs : collectObjects [(9, 9), (5, 5)] (0, 0) =
      [⟨9, 9, ObjType.head⟩, ⟨5, 5, ObjType.body⟩, ⟨0, 0, ObjType.food⟩] := by
    simp [collectObjects, List.enum]
  have k1 : ¬ sortKey cfg ⟨5, 5, ObjType.body⟩ ≤ sortKey cfg ⟨0, 0, ObjType.food⟩ := by
    unfold sortKey
    dsimp only
    push_neg
    nlinarith [hsum]
  have k2 : ¬ sortKey cfg ⟨9, 9, ObjType.head⟩ ≤ sortKey cfg ⟨0, 0, ObjType.food⟩ := by
    unfold sortKey
    dsimp only
    push_neg
    nlinarith [hsum]
  have k3 : ¬ sortKey cfg ⟨9, 9, ObjType.head⟩ ≤ sortKey cfg ⟨5, 5, ObjType.body⟩ := by
    unfold sortKey
    dsimp only
    push_neg
    nlinarith [hsum]
  rw [hobjs]
  simp only [sortObjects, insertByKey, if_neg k1, if_neg k2, if_neg k3]

/-- Maximum of the four corner values `0, k*p, k*q, k*(p+q)` for `k ≥ 0`. -/
lemma max4_linear (k p q : ℝ) (hk : 0 ≤ k) :
    max (max 0 (k * p)) (max (k * q) (k * (p + q))) =
      k * (max p 0 + max q 0) := by
  have hb0 : (0 : ℝ) ≤ max (max 0 (k * p)) (max (k * q) (k * (p + q))) :=
    le_max_of_le_left (le_max_left 0 (k * p))
  have hbp : k * p ≤ max (max 0 (k * p)) (max (k * q) (k * (p + q))) :=
    le_max_of_le_left (le_max_right 0 (k * p))
  have hbq : k * q ≤ max (max 0 (k * p)) (max (k * q) (k * (p + q))) :=
    le_max_of_le_right (le_max_left (k * q) (k * (p + q)))
  have hbpq : k * (p + q) ≤ max (max 0 (k * p)) (max (k * q) (k * (p + q))) :=
    le_max_of_le_right (le_max_right (k * q) (k * (p + q)))
  apply le_antisymm
  · apply max_le <;> apply max_le
    · nlinarith [le_max_left p 0, le_max_right p 0, le_max_left q 0,
        le_max_right q 0]
    · nlinarith [le_max_left p 0, le_max_right p 0, le_max_left q 0,
        le_max_right q 0]
    · nlinarith [le_max_left p 0, le_max_right p 0, le_max_left q 0,
        le_max_right q 0]
    · nlinarith [le_max_left p 0, le_max_right p 0, le_max_left q 0,
        le_max_right q 0]
  · rcases le_total 0 p with hp | hp <;> rcases le_total 0 q with hq | hq
    · rw [max_eq_left hp, max_eq_left hq]
      linarith [hbpq]
    · rw [max_eq_left hp, max_eq_right hq]
      linarith [hbp]
    · rw [max_eq_right hp, max_eq_left hq]
      linarith [hbq]
    · rw [max_eq_right hp, max_eq_right hq]
      linarith [hb0]

/-- Minimum of the four corner values `0, k*p, k*q, k*(p+q)` for `k ≥ 0`. -/
lemma min4_linear (k p q : ℝ) (hk : 0 ≤ k) :
    min (min 0 (k * p)) (min (k * q) (k * (p + q))) =
      k * (min p 0 + min q 0) := by
  have hb0 : min (min 0 (k * p)) (min (k * q) (k * (p + q))) ≤ 0 :=
    min_le_of_left_le (min_le_left 0 (k * p))
  have hbp : min (min 0 (k * p)) (min (k * q) (k * (p + q))) ≤ k * p :=
    min_le_of_left_le (min_le_right 0 (k * p))
  have hbq : min (min 0 (k * p)) (min (k * q) (k * (p + q))) ≤ k * q :=
    min_le_of_right_le (min_le_left (k * q) (k * (p + q)))
  have hbpq : min (min 0 (k * p)) (min (k * q) (k * (p + q))) ≤ k * (p + q) :=
    min_le_of_right_le (min_le_right (k * q) (k * (p + q)))
  apply le_antisymm
  · rcases le_total p 0 with hp | hp <;> rcases le_total q 0 with hq | hq
    · rw [min_eq_left hp, min_eq_left hq]
      linarith [hbpq]
    · rw [min_eq_left hp, min_eq_right hq]
      linarith [hbp]
    · rw [min_eq_right hp, min_eq_left hq]
      linarith [hbq]
    · rw [min_eq_right hp, min_eq_right hq]
      linarith [hb0]
  · apply le_min <;> apply le_min
    · nlinarith [min_le_left p 0, min_le_right p 0, min_le_left q 0,
        min_le_right q 0]
    · nlinarith [min_le_left p 0, min_le_right p 0, min_le_left q 0,
        min_le_right q 0]
    · nlinarith [min_le_left p 0, min_le_right p 0, min_le_left q 0,
        min_le_right q 0]
    · nlinarith [min_le_left p 0, min_le_right p 0, min_le_left q 0,
        min_le_right q 0]

/-- Closed form of `rawMaxY` as a sum of clamped basis components. -/
lemma rawMaxY_eq (cfg : Cfg) :
    rawMaxY cfg =
      (cfg.gridSize : ℝ) * (max (basisXy cfg) 0 + max (basisYy cfg) 0) := by
  unfold rawMaxY
  exact max4_linear _ _ _ (Nat.cast_nonneg _)

/-- Closed form of `rawMinY` as a sum of clamped basis components. -/
lemma rawMinY_eq (cfg : Cfg) :
    rawMinY cfg =
      (cfg.gridSize : ℝ) * (min (basisXy cfg) 0 + min (basisYy cfg) 0) := by
  unfold rawMinY
  exact min4_linear _ _ _ (Nat.cast_nonneg _)

/-- A product with a factor in `[0, N]` is at most `N` times the clamped
other factor. -/
lemma mul_le_cast_max (Nr u p : ℝ) (hu0 : 0 ≤ u) (huN : u ≤ Nr) :
    u * p ≤ Nr * max p 0 := by
  rcases le_total 0 p with hp | hp
  · rw [max_eq_left hp]
    exact mul_le_mul_of_nonneg_right huN hp
  · rw [max_eq_right hp, mul_zero]
    exact mul_nonpos_of_nonneg_of_nonpos hu0 hp

/-- The raw Y of any point of the grid square `[0, N]²` is at most
`rawMaxY`. -/
lemma rawY_le_rawMaxY (cfg : Cfg) (u v : ℝ) (hu0 : 0 ≤ u)
    (huN : u ≤ (cfg.gridSize : ℝ)) (hv0 : 0 ≤ v)
    (hvN : v ≤ (cfg.gridSize : ℝ)) :
    u * basisXy cfg + v * basisYy cfg ≤ rawMaxY cfg := by
  rw [rawMaxY_eq]
  have h1 := mul_le_cast_max (cfg.gridSize : ℝ) u (basisXy cfg) hu0 huN
  have h2 := mul_le_cast_max (cfg.gridSize : ℝ) v (basisYy cfg) hv0 hvN
  nlinarith [h1, h2]

/-- With positive perspective strength, `getBlockHeight` in closed form. -/
lemma getBlockHeight_eq_of_pos (cfg : Cfg) (hst : 0 < cfg.perspectiveStrength)
    (gx gy : ℝ) :
    getBlockHeight cfg gx gy =
      baseBlockHeight cfg *
        (depthRange cfg / cfg.perspectiveStrength /
          (depthRange cfg / cfg.perspectiveStrength +
            (rawMaxY cfg -
              ((gx + 0.5) * basisXy cfg + (gy + 0.5) * basisYy cfg)))) := by
  unfold getBlockHeight
  rw [show focalLength cfg = some (depthRange cfg / cfg.perspectiveStrength) by
    unfold focalLength; exact if_pos hst]

/-- With zero perspective strength, `getBlockHeight` is the base height. -/
lemma getBlockHeight_eq_of_zero (cfg : Cfg) (hst : cfg.perspectiveStrength = 0)
    (gx gy : ℝ) :
    getBlockHeight cfg gx gy = baseBlockHeight cfg := by
  unfold getBlockHeight
  rw [show focalLength cfg = none by
    unfold focalLength
    exact if_neg (by rw [hst]; exact lt_irrefl 0)]

/-- C3: for a fixed configuration with strictly positive perspective
strength, `getBlockHeight` is strictly monotone in the cell center's raw Y:
a cell nearer the front (larger raw Y) gets a strictly larger block. -/
theorem c3_block_height_monotone_in_depth (cfg : Cfg)
    (hst : 0 < cfg.perspectiveStrength) (hpr : 0 < cfg.perspectiveRatio)
    (c1 r1 c2 r2 : ℕ) (h1x : c1 < cfg.gridSize) (h1y : r1 < cfg.gridSize)
    (h2x : c2 < cfg.gridSize) (h2y : r2 < cfg.gridSize)
    (hY : ((c2 : ℝ) + 0.5) * basisXy cfg + ((r2 : ℝ) + 0.5) * basisYy cfg <
      ((c1 : ℝ) + 0.5) * basisXy cfg + ((r1 : ℝ) + 0.5) * basisYy cfg) :
    getBlockHeight cfg (c2 : ℝ) (r2 : ℝ) <
      getBlockHeight cfg (c1 : ℝ) (r1 : ℝ) := by
  have hN : 0 < cfg.gridSize := lt_of_le_of_lt (Nat.zero_le _) h1x
  have hS := scale_pos cfg hN
  have hbbh : 0 < baseBlockHeight cfg := by
    unfold baseBlockHeight
    have h2 : (0 : ℝ) < Real.sqrt 2 := Real.sqrt_pos.2 (by norm_num)
    positivity
  have hDR : (0 : ℝ) < depthRange cfg :=
    lt_of_lt_of_le (by norm_num) (le_max_right _ _)
  have hf : 0 < depthRange cfg / cfg.perspectiveStrength := div_pos hDR hst
  have hc1 : ((c1 : ℝ) + 0.5) * basisXy cfg + ((r1 : ℝ) + 0.5) * basisYy cfg ≤
      rawMaxY cfg := by
    have e1 : (c1 : ℝ) + 1 ≤ (cfg.gridSize : ℝ) := by exact_mod_cast h1x
    have e2 : (r1 : ℝ) + 1 ≤ (cfg.gridSize : ℝ) := by exact_mod_cast h1y
    exact rawY_le_rawMaxY cfg _ _ (by positivity) (by norm_num at e1 ⊢; linarith)
      (by positivity) (by norm_num at e2 ⊢; linarith)
  rw [getBlockHeight_eq_of_pos cfg hst, getBlockHeight_eq_of_pos cfg hst]
  apply mul_lt_mul_of_pos_left _ hbbh
  rw [div_lt_div_iff (by nlinarith) (by nlinarith)]
  nlinarith [hf, hY]

/-- Witness for C3 at a concrete configuration: cell `(0,1)` is nearer the
front than cell `(0,0)` at angle `0`. -/
theorem c3_block_height_monotone_in_depth_witness :
    0 < cfgW1.perspectiveStrength ∧ 0 < cfgW1.perspectiveRatio ∧
      (0 < cfgW1.gridSize ∧ 1 < cfgW1.gridSize) ∧
      (((0 : ℕ) : ℝ) + 0.5) * basisXy cfgW1 + (((0 : ℕ) : ℝ) + 0.5) * basisYy cfgW1 <
        (((0 : ℕ) : ℝ) + 0.5) * basisXy cfgW1 + (((1 : ℕ) : ℝ) + 0.5) * basisYy cfgW1 ∧
      getBlockHeight cfgW1 ((0 : ℕ) : ℝ) ((0 : ℕ) : ℝ) <
        getBlockHeight cfgW1 ((0 : ℕ) : ℝ) ((1 : ℕ) : ℝ) := by
  have hS : 0 < scale cfgW1 := scale_pos cfgW1 (by norm_num [cfgW1])
  have hY : (((0 : ℕ) : ℝ) + 0.5) * basisXy cfgW1 +
      (((0 : ℕ) : ℝ) + 0.5) * basisYy cfgW1 <
      (((0 : ℕ) : ℝ) + 0.5) * basisXy cfgW1 +
      (((1 : ℕ) : ℝ) + 0.5) * basisYy cfgW1 := by
    unfold basisXy basisYy
    have h0 : cfgW1.isoAngle = 0 := rfl
    have h1 : cfgW1.perspectiveRatio = 1 / 2 := rfl
    rw [h0, h1, Real.sin_zero, Real.cos_zero]
    push_cast
    nlinarith [hS]
  exact ⟨by norm_num [cfgW1], by norm_num [cfgW1],
    ⟨by norm_num [cfgW1], by norm_num [cfgW1]⟩, hY,
    c3_block_height_monotone_in_depth cfgW1 (by norm_num [cfgW1])
      (by norm_num [cfgW1]) 0 1 0 0 (by norm_num [cfgW1]) (by norm_num [cfgW1])
      (by norm_num [cfgW1]) (by norm_num [cfgW1]) hY⟩

/-- Clamp-above-zero as a half-sum with the absolute value. -/
lemma max_zero_half (x : ℝ) : max x 0 = (x + |x|) / 2 := by
  rcases le_total 0 x with h | h
  · rw [max_eq_left h, abs_of_nonneg h]; ring
  · rw [max_eq_right h, abs_of_nonpos h]; ring

/-- Clamp-below-zero as a half-difference with the absolute value. -/
lemma min_zero_half (x : ℝ) : min x 0 = (x - |x|) / 2 := by
  rcases le_total 0 x with h | h
  · rw [min_eq_right h, abs_of_nonneg h]; ring
  · rw [min_eq_left h, abs_of_nonpos h]; ring

/-- For any angle, `|sin| + |cos|` is at least `1`. -/
lemma one_le_abs_sin_add_abs_cos (A : ℝ) :
    1 ≤ |Real.sin A| + |Real.cos A| := by
  nlinarith [Real.sin_sq_add_cos_sq A, abs_nonneg (Real.sin A),
    abs_nonneg (Real.cos A), sq_abs (Real.sin A), sq_abs (Real.cos A),
    mul_nonneg (abs_nonneg (Real.sin A)) (abs_nonneg (Real.cos A))]

/-- Absolute value of `basisXy` in factored form. -/
lemma abs_basisXy (cfg : Cfg) (hS : 0 ≤ scale cfg)
    (hpr : 0 ≤ cfg.perspectiveRatio) :
    |basisXy cfg| =
      |Real.sin cfg.isoAngle| * scale cfg * cfg.perspectiveRatio := by
  unfold basisXy
  rw [abs_mul, abs_mul, abs_of_nonneg hS, abs_of_nonneg hpr]

/-- Absolute value of `basisYy` in factored form. -/
lemma abs_basisYy (cfg : Cfg) (hS : 0 ≤ scale cfg)
    (hpr : 0 ≤ cfg.perspectiveRatio) :
    |basisYy cfg| =
      |Real.cos cfg.isoAngle| * scale cfg * cfg.perspectiveRatio := by
  unfold basisYy
  rw [abs_mul, abs_mul, abs_of_nonneg hS, abs_of_nonneg hpr]

/-- With positive perspective strength (and the program's viewport clamp
and perspective ratio), the block height at the grid center reduces to the
rotation-independent closed form `baseBlockHeight * 2 / (2 + strength)`. -/
lemma getBlockHeight_center_closed (cfg : Cfg) (hN : 0 < cfg.gridSize)
    (hpr : 1 / 1000 ≤ cfg.perspectiveRatio)
    (hst : 0 < cfg.perspectiveStrength) :
    getBlockHeight cfg (((cfg.gridSize : ℝ) - 1) / 2)
        (((cfg.gridSize : ℝ) - 1) / 2) =
      baseBlockHeight cfg * (2 / (2 + cfg.perspectiveStrength)) := by
  have hS : 0 < scale cfg := scale_pos cfg hN
  have hpr0 : (0 : ℝ) < cfg.perspectiveRatio := lt_of_lt_of_le (by norm_num) hpr
  have hNR : (0 : ℝ) < (cfg.gridSize : ℝ) := by exact_mod_cast hN
  have hsq : (0 : ℝ) < Real.sqrt 2 := Real.sqrt_pos.2 (by norm_num)
  have hsq15 : Real.sqrt 2 ≤ 1.5 := by
    nlinarith [Real.sq_sqrt (show (0 : ℝ) ≤ 2 by norm_num),
      Real.sqrt_nonneg 2]
  have hW : (300 : ℝ) ≤ isoWidth cfg := by
    simpa [ISO_MIN_WIDTH] using isoWidth_ge cfg
  have hkmul : (cfg.gridSize : ℝ) * scale cfg * cfg.perspectiveRatio *
      Real.sqrt 2 = isoWidth cfg * cfg.perspectiveRatio := by
    unfold scale
    field_simp
    ring
  have hk : (0 : ℝ) <
      (cfg.gridSize : ℝ) * scale cfg * cfg.perspectiveRatio := by positivity
  have hWpr : (3 / 10 : ℝ) ≤ isoWidth cfg * cfg.perspectiveRatio := by
    nlinarith [hW, hpr, hpr0]
  have hklow : (1 / 5 : ℝ) ≤
      (cfg.gridSize : ℝ) * scale cfg * cfg.perspectiveRatio := by
    nlinarith [hkmul, hWpr, hsq15, hk.le]
  have hSig := one_le_abs_sin_add_abs_cos cfg.isoAngle
  have habsXy := abs_basisXy cfg hS.le hpr0.le
  have habsYy := abs_basisYy cfg hS.le hpr0.le
  have hDRraw : rawMaxY cfg - rawMinY cfg =
      (cfg.gridSize : ℝ) * scale cfg * cfg.perspectiveRatio *
        (|Real.sin cfg.isoAngle| + |Real.cos cfg.isoAngle|) := by
    rw [rawMaxY_eq, rawMinY_eq, max_zero_half, max_zero_half, min_zero_half,
      min_zero_half, habsXy, habsYy]
    ring
  have hDR : depthRange cfg =
      (cfg.gridSize : ℝ) * scale cfg * cfg.perspectiveRatio *
        (|Real.sin cfg.isoAngle| + |Real.cos cfg.isoAngle|) := by
    unfold depthRange
    rw [hDRraw]
    apply max_eq_left
    nlinarith [hklow, hSig, hk]
  have hcenter : rawMaxY cfg -
      ((((cfg.gridSize : ℝ) - 1) / 2 + 0.5) * basisXy cfg +
        (((cfg.gridSize : ℝ) - 1) / 2 + 0.5) * basisYy cfg) =
      (cfg.gridSize : ℝ) * scale cfg * cfg.perspectiveRatio *
        (|Real.sin cfg.isoAngle| + |Real.cos cfg.isoAngle|) / 2 := by
    rw [rawMaxY_eq, max_zero_half, max_zero_half, habsXy, habsYy]
    unfold basisXy basisYy
    norm_num
    ring
  rw [getBlockHeight_eq_of_pos cfg hst, hDR, hcenter]
  congr 1
  have hX : (0 : ℝ) <
      (cfg.gridSize : ℝ) * scale cfg * cfg.perspectiveRatio *
        (|Real.sin cfg.isoAngle| + |Real.cos cfg.isoAngle|) := by
    nlinarith [hk, hSig]
  have hden : (0 : ℝ) <
      (cfg.gridSize : ℝ) * scale cfg * cfg.perspectiveRatio *
          (|Real.sin cfg.isoAngle| + |Real.cos cfg.isoAngle|) /
          cfg.perspectiveStrength +
        (cfg.gridSize : ℝ) * scale cfg * cfg.perspectiveRatio *
          (|Real.sin cfg.isoAngle| + |Real.cos cfg.isoAngle|) / 2 := by
    positivity
  field_simp
  ring

/-- C4: `getBlockHeight` at the grid center cell is identical for any two
rotation angles, given identical grid size, window width, perspective
ratio and perspective strength. -/
theorem c4_center_block_height_rotation_invariant (A1 A2 pr st : ℝ)
    (N : ℕ) (Ww : ℝ) (hN : 0 < N) (hpr : 1 / 1000 ≤ pr) (hst0 : 0 ≤ st)
    (hst1 : st ≤ 0.8) :
    getBlockHeight ⟨A1, pr, st, N, Ww⟩ (((N : ℝ) - 1) / 2)
        (((N : ℝ) - 1) / 2) =
      getBlockHeight ⟨A2, pr, st, N, Ww⟩ (((N : ℝ) - 1) / 2)
        (((N : ℝ) - 1) / 2) := by
  rcases eq_or_lt_of_le hst0 with h0 | hpos
  · rw [getBlockHeight_eq_of_zero ⟨A1, pr, st, N, Ww⟩ h0.symm,
      getBlockHeight_eq_of_zero ⟨A2, pr, st, N, Ww⟩ h0.symm]
    rfl
  · rw [getBlockHeight_center_closed ⟨A1, pr, st, N, Ww⟩ hN hpr hpos,
      getBlockHeight_center_closed ⟨A2, pr, st, N, Ww⟩ hN hpr hpos]
    rfl

/-- Witness for C4 at two concrete angles. -/
theorem c4_center_block_height_rotation_invariant_witness :
    0 < 10 ∧ (1 / 1000 : ℝ) ≤ 1 / 2 ∧ (0 : ℝ) ≤ 2 / 5 ∧ (2 / 5 : ℝ) ≤ 0.8 ∧
      getBlockHeight ⟨0, 1 / 2, 2 / 5, 10, 1000⟩ ((((10 : ℕ) : ℝ) - 1) / 2)
          ((((10 : ℕ) : ℝ) - 1) / 2) =
        getBlockHeight ⟨1, 1 / 2, 2 / 5, 10, 1000⟩ ((((10 : ℕ) : ℝ) - 1) / 2)
          ((((10 : ℕ) : ℝ) - 1) / 2) :=
  ⟨by norm_num, by norm_num, by norm_num, by norm_num,
    c4_center_block_height_rotation_invariant 0 1 (1 / 2) (2 / 5) 10 1000
      (by norm_num) (by norm_num) (by norm_num) (by norm_num)⟩

/-- First inset corner of `drawBlock` in terms of `toIso`. -/
lemma blockCorner_zero (cfg : Cfg) (gx gy : ℝ) :
    blockCorner cfg gx gy 0 = toIso cfg (gx + 0.05) (gy + 0.05) := rfl

/-- Second inset corner of `drawBlock` in terms of `toIso`. -/
lemma blockCorner_one (cfg : Cfg) (gx gy : ℝ) :
    blockCorner cfg gx gy 1 = toIso cfg (gx + 1 - 0.05) (gy + 0.05) := rfl

/-- Third inset corner of `drawBlock` in terms of `toIso`. -/
lemma blockCorner_two (cfg : Cfg) (gx gy : ℝ) :
    blockCorner cfg gx gy 2 = toIso cfg (gx + 1 - 0.05) (gy + 1 - 0.05) := rfl

/-- Fourth inset corner of `drawBlock` in terms of `toIso`. -/
lemma blockCorner_three (cfg : Cfg) (gx gy : ℝ) :
    blockCorner cfg gx gy 3 = toIso cfg (gx + 0.05) (gy + 1 - 0.05) := rfl

/-- An edge whose far corner is strictly left of its near corner is
front-facing. -/
lemma edgeFront_eq_true {cfg : Cfg} {gx gy : ℝ} {i : ℕ}
    (h : (blockCorner cfg gx gy ((i + 1) % 4)).1 < (blockCorner cfg gx gy i).1) :
    edgeFront cfg gx gy i = true := by
  unfold edgeFront
  exact decide_eq_true h

/-- An edge that is not left-descending is not front-facing. -/
lemma edgeFront_eq_false {cfg : Cfg} {gx gy : ℝ} {i : ℕ}
    (h : ¬ (blockCorner cfg gx gy ((i + 1) % 4)).1 < (blockCorner cfg gx gy i).1) :
    edgeFront cfg gx gy i = false := by
  unfold edgeFront
  exact decide_eq_false h

/-- An edge whose near corner is strictly left of its far corner is
back-facing. -/
lemma edgeBack_eq_true {cfg : Cfg} {gx gy : ℝ} {i : ℕ}
    (h : (blockCorner cfg gx gy i).1 < (blockCorner cfg gx gy ((i + 1) % 4)).1) :
    edgeBack cfg gx gy i = true := by
  unfold edgeBack
  exact decide_eq_true h

/-- An edge that is not left-ascending is not back-facing. -/
lemma edgeBack_eq_false {cfg : Cfg} {gx gy : ℝ} {i : ℕ}
    (h : ¬ (blockCorner cfg gx gy i).1 < (blockCorner cfg gx gy ((i + 1) % 4)).1) :
    edgeBack cfg gx gy i = false := by
  unfold edgeBack
  exact decide_eq_false h

/-- Length of a filtered four-element index list, by cases on the
predicate. -/
lemma length_filter_four (p : ℕ → Bool) :
    (List.filter p [0, 1, 2, 3]).length =
      (if p 0 = true then 1 else 0) + (if p 1 = true then 1 else 0) +
        (if p 2 = true then 1 else 0) + (if p 3 = true then 1 else 0) := by
  by_cases h0 : p 0 = true <;> by_cases h1 : p 1 = true <;>
    by_cases h2 : p 2 = true <;> by_cases h3 : p 3 = true <;>
    simp [h0, h1, h2, h3]

/-- With an infinite focal length the four projected inset corners differ
in x by scaled basis components only. -/
lemma corner_x_sub (cfg : Cfg) (hf : focalLength cfg = none) (gx gy : ℝ) :
    (blockCorner cfg gx gy 1).1 - (blockCorner cfg gx gy 0).1 =
        0.9 * basisXx cfg ∧
      (blockCorner cfg gx gy 2).1 - (blockCorner cfg gx gy 1).1 =
        0.9 * basisYx cfg ∧
      (blockCorner cfg gx gy 3).1 - (blockCorner cfg gx gy 2).1 =
        -(0.9 * basisXx cfg) ∧
      (blockCorner cfg gx gy 0).1 - (blockCorner cfg gx gy 3).1 =
        -(0.9 * basisYx cfg) := by
  have hp : ∀ d, persScale cfg d = 1 := by
    intro d
    unfold persScale
    rw [hf]
  rw [blockCorner_zero, blockCorner_one, blockCorner_two, blockCorner_three]
  unfold toIso
  simp only [hp]
  refine ⟨by ring, by ring, by ring, by ring⟩

/-- C2 (amended): with perspective disabled (focal length infinite) and
both `basisXx` and `basisYx` nonzero, the per-edge classification of
`drawBlock` yields exactly 2 front-facing and 2 back-facing edges. -/
theorem c2_face_classification_two_two (cfg : Cfg)
    (hst : cfg.perspectiveStrength = 0) (hx : basisXx cfg ≠ 0)
    (hy : basisYx cfg ≠ 0) (gx gy : ℝ) :
    (frontFaces cfg gx gy).length = 2 ∧ (backFaces cfg gx gy).length = 2 := by
  have hf : focalLength cfg = none := by
    unfold focalLength
    exact if_neg (by rw [hst]; exact lt_irrefl 0)
  obtain ⟨e0, e1, e2, e3⟩ := corner_x_sub cfg hf gx gy
  have hrange : List.range 4 = [0, 1, 2, 3] := rfl
  rcases hx.lt_or_lt with hxn | hxp <;> rcases hy.lt_or_lt with hyn | hyp
  · have c0 : (blockCorner cfg gx gy 1).1 < (blockCorner cfg gx gy 0).1 := by
      linarith [e0]
    have c1 : (blockCorner cfg gx gy 2).1 < (blockCorner cfg gx gy 1).1 := by
      linarith [e1]
    have c2 : (blockCorner cfg gx gy 2).1 < (blockCorner cfg gx gy 3).1 := by
      linarith [e2]
    have c3 : (blockCorner cfg gx gy 3).1 < (blockCorner cfg gx gy 0).1 := by
      linarith [e3]
    constructor <;>
      [ (unfold frontFaces
         rw [hrange, length_filter_four, edgeFront_eq_true c0,
           edgeFront_eq_true c1, edgeFront_eq_false (asymm c2),
           edgeFront_eq_false (asymm c3)]
         norm_num);
        (unfold backFaces
         rw [hrange, length_filter_four, edgeBack_eq_false (asymm c0),
           edgeBack_eq_false (asymm c1), edgeBack_eq_true c2,
           edgeBack_eq_true c3]
         norm_num) ]
  · have c0 : (blockCorner cfg gx gy 1).1 < (blockCorner cfg gx gy 0).1 := by
      linarith [e0]
    have c1 : (blockCorner cfg gx gy 1).1 < (blockCorner cfg gx gy 2).1 := by
      linarith [e1]
    have c2 : (blockCorner cfg gx gy 2).1 < (blockCorner cfg gx gy 3).1 := by
      linarith [e2]
    have c3 : (blockCorner cfg gx gy 0).1 < (blockCorner cfg gx gy 3).1 := by
      linarith [e3]
    constructor <;>
      [ (unfold frontFaces
         rw [hrange, length_filter_four, edgeFront_eq_true c0,
           edgeFront_eq_false (asymm c1), edgeFront_eq_false (asymm c2),
           edgeFront_eq_true c3]
         norm_num);
        (unfold backFaces
         rw [hrange, length_filter_four, edgeBack_eq_false (asymm c0),
           edgeBack_eq_true c1, edgeBack_eq_true c2,
           edgeBack_eq_false (asymm c3)]
         norm_num) ]
  · have c0 : (blockCorner cfg gx gy 0).1 < (blockCorner cfg gx gy 1).1 := by
      linarith [e0]
    have c1 : (blockCorner cfg gx gy 2).1 < (blockCorner cfg gx gy 1).1 := by
      linarith [e1]
    have c2 : (blockCorner cfg gx gy 3).1 < (blockCorner cfg gx gy 2).1 := by
      linarith [e2]
    have c3 : (blockCorner cfg gx gy 3).1 < (blockCorner cfg gx gy 0).1 := by
      linarith [e3]
    constructor <;>
      [ (unfold frontFaces
         rw [hrange, length_filter_four, edgeFront_eq_false (asymm c0),
           edgeFront_eq_true c1, edgeFront_eq_true c2,
           edgeFront_eq_false (asymm c3)]
         norm_num);
        (unfold backFaces
         rw [hrange, length_filter_four, edgeBack_eq_true c0,
           edgeBack_eq_false (asymm c1), edgeBack_eq_false (asymm c2),
           edgeBack_eq_true c3]
         norm_num) ]
  · have c0 : (blockCorner cfg gx gy 0).1 < (blockCorner cfg gx gy 1).1 := by
      linarith [e0]
    have c1 : (blockCorner cfg gx gy 1).1 < (blockCorner cfg gx gy 2).1 := by
      linarith [e1]
    have c2 : (blockCorner cfg gx gy 3).1 < (blockCorner cfg gx gy 2).1 := by
      linarith [e2]
    have c3 : (blockCorner cfg gx gy 0).1 < (blockCorner cfg gx gy 3).1 := by
      linarith [e3]
    constructor <;>
      [ (unfold frontFaces
         rw [hrange, length_filter_four, edgeFront_eq_false (asymm c0),
           edgeFront_eq_false (asymm c1), edgeFront_eq_true c2,
           edgeFront_eq_true c3]
         norm_num);
        (unfold backFaces
         rw [hrange, length_filter_four, edgeBack_eq_true c0,
           edgeBack_eq_true c1, edgeBack_eq_false (asymm c2),
           edgeBack_eq_false (asymm c3)]
         norm_num) ]

/-- The perspective scale in explicit form once the focal length is known
finite. -/
lemma persScale_eq_of_focal (cfg : Cfg) (f : ℝ)
    (hf : focalLength cfg = some f) (d : ℝ) :
    persScale cfg d = f / (f + d) := by
  unfold persScale
  rw [hf]

/-- Cosine of the counterexample angle `2 * arctan (1/10)`. -/
lemma cfgC2_cos : Real.cos cfgC2.isoAngle = 99 / 101 := by
  show Real.cos (2 * Real.arctan (1 / 10)) = 99 / 101
  rw [Real.cos_two_mul, Real.cos_arctan]
  rw [div_pow, one_pow, Real.sq_sqrt (by norm_num : (0 : ℝ) ≤ 1 + (1 / 10) ^ 2)]
  norm_num

/-- Sine of the counterexample angle `2 * arctan (1/10)`. -/
lemma cfgC2_sin : Real.sin cfgC2.isoAngle = 20 / 101 := by
  show Real.sin (2 * Real.arctan (1 / 10)) = 20 / 101
  rw [Real.sin_two_mul, Real.sin_arctan, Real.cos_arctan]
  have hmul : Real.sqrt (1 + (1 / 10 : ℝ) ^ 2) * Real.sqrt (1 + (1 / 10 : ℝ) ^ 2) =
      1 + (1 / 10 : ℝ) ^ 2 := Real.mul_self_sqrt (by norm_num)
  have hpos : (0 : ℝ) < Real.sqrt (1 + (1 / 10 : ℝ) ^ 2) :=
    Real.sqrt_pos.2 (by norm_num)
  field_simp
  nlinarith [hmul, hpos]

/-- The viewport width of the counterexample configuration. -/
lemma cfgC2_isoWidth : isoWidth cfgC2 = 1000 := by
  unfold isoWidth getIsoWidth ISO_MIN_WIDTH ISO_MAX_WIDTH
  rw [show cfgC2.windowInnerWidth = 1070 from rfl]
  rw [show (1070 : ℝ) - 70 = 1000 from by norm_num]
  rw [min_eq_left (by norm_num), max_eq_right (by norm_num)]

/-- The scale of the counterexample configuration is at least `1`. -/
lemma cfgC2_scale_ge_one : 1 ≤ scale cfgC2 := by
  unfold scale
  rw [cfgC2_isoWidth, show ((cfgC2.gridSize : ℕ) : ℝ) = 5 from by norm_num [cfgC2]]
  have hsq : (0 : ℝ) < Real.sqrt 2 := Real.sqrt_pos.2 (by norm_num)
  have hsq15 : Real.sqrt 2 ≤ 1.5 := by
    nlinarith [Real.sq_sqrt (show (0 : ℝ) ≤ 2 by norm_num), Real.sqrt_nonneg 2]
  rw [le_div_iff (by positivity)]
  nlinarith [hsq15, hsq]

/-- The scale of the counterexample configuration is positive. -/
lemma cfgC2_scale_pos : 0 < scale cfgC2 :=
  lt_of_lt_of_le one_pos cfgC2_scale_ge_one

/-- Basis component `basisXx` of the counterexample configuration. -/
lemma cfgC2_basisXx : basisXx cfgC2 = 99 / 101 * scale cfgC2 := by
  unfold basisXx
  rw [cfgC2_cos]

/-- Basis component `basisXy` of the counterexample configuration. -/
lemma cfgC2_basisXy : basisXy cfgC2 = 10 / 101 * scale cfgC2 := by
  unfold basisXy
  rw [cfgC2_sin, show cfgC2.perspectiveRatio = (1 : ℝ) / 2 from rfl]
  ring

/-- Basis component `basisYx` of the counterexample configuration. -/
lemma cfgC2_basisYx : basisYx cfgC2 = -(20 / 101) * scale cfgC2 := by
  unfold basisYx
  rw [cfgC2_sin]

/-- Basis component `basisYy` of the counterexample configuration. -/
lemma cfgC2_basisYy : basisYy cfgC2 = 99 / 202 * scale cfgC2 := by
  unfold basisYy
  rw [cfgC2_cos, show cfgC2.perspectiveRatio = (1 : ℝ) / 2 from rfl]
  ring

/-- Grid size cast of the counterexample configuration. -/
lemma cfgC2_gridSize : ((cfgC2.gridSize : ℕ) : ℝ) = 5 := by
  norm_num [cfgC2]

/-- The raw maximal corner Y of the counterexample configuration. -/
lemma cfgC2_rawMaxY : rawMaxY cfgC2 = 595 / 202 * scale cfgC2 := by
  have hS := cfgC2_scale_pos
  unfold rawMaxY
  rw [cfgC2_basisXy, cfgC2_basisYy, cfgC2_gridSize]
  have m1 : max (0 : ℝ) (5 * (10 / 101 * scale cfgC2)) =
      5 * (10 / 101 * scale cfgC2) := max_eq_right (by nlinarith)
  have m2 : max (5 * (99 / 202 * scale cfgC2))
      (5 * (10 / 101 * scale cfgC2 + 99 / 202 * scale cfgC2)) =
      5 * (10 / 101 * scale cfgC2 + 99 / 202 * scale cfgC2) :=
    max_eq_right (by nlinarith)
  rw [m1, m2, max_eq_right (by nlinarith)]
  ring

/-- The raw minimal corner Y of the counterexample configuration. -/
lemma cfgC2_rawMinY : rawMinY cfgC2 = 0 := by
  have hS := cfgC2_scale_pos
  unfold rawMinY
  rw [cfgC2_basisXy, cfgC2_basisYy, cfgC2_gridSize]
  have m1 : min (0 : ℝ) (5 * (10 / 101 * scale cfgC2)) = 0 :=
    min_eq_left (by nlinarith)
  have m2 : min (5 * (99 / 202 * scale cfgC2))
      (5 * (10 / 101 * scale cfgC2 + 99 / 202 * scale cfgC2)) =
      5 * (99 / 202 * scale cfgC2) := min_eq_left (by nlinarith)
  rw [m1, m2, min_eq_left (by nlinarith)]

/-- The raw center X of the counterexample configuration. -/
lemma cfgC2_rawCenterX : rawCenterX cfgC2 = 395 / 202 * scale cfgC2 := by
  have hS := cfgC2_scale_pos
  unfold rawCenterX
  rw [cfgC2_basisXx, cfgC2_basisYx, cfgC2_gridSize]
  have m1 : min (0 : ℝ) (5 * (99 / 101 * scale cfgC2)) = 0 :=
    min_eq_left (by nlinarith)
  have m2 : min (5 * (-(20 / 101) * scale cfgC2))
      (5 * (99 / 101 * scale cfgC2 + -(20 / 101) * scale cfgC2)) =
      5 * (-(20 / 101) * scale cfgC2) := min_eq_left (by nlinarith)
  have m3 : max (0 : ℝ) (5 * (99 / 101 * scale cfgC2)) =
      5 * (99 / 101 * scale cfgC2) := max_eq_right (by nlinarith)
  have m4 : max (5 * (-(20 / 101) * scale cfgC2))
      (5 * (99 / 101 * scale cfgC2 + -(20 / 101) * scale cfgC2)) =
      5 * (99 / 101 * scale cfgC2 + -(20 / 101) * scale cfgC2) :=
    max_eq_right (by nlinarith)
  rw [m1, m2, m3, m4, min_eq_right (by nlinarith), max_eq_left (by nlinarith)]
  ring

/-- The depth range of the counterexample configuration. -/
lemma cfgC2_depthRange : depthRange cfgC2 = 595 / 202 * scale cfgC2 := by
  unfold depthRange
  rw [cfgC2_rawMaxY, cfgC2_rawMinY]
  rw [max_eq_left (by nlinarith [cfgC2_scale_ge_one])]
  ring

/-- The focal length of the counterexample configuration. -/
lemma cfgC2_focal : focalLength cfgC2 = some (2975 / 808 * scale cfgC2) := by
  unfold focalLength
  rw [if_pos (show (0 : ℝ) < cfgC2.perspectiveStrength by norm_num [cfgC2])]
  rw [cfgC2_depthRange, show cfgC2.perspectiveStrength = (4 : ℝ) / 5 from rfl]
  rw [show (595 / 202 * scale cfgC2) / ((4 : ℝ) / 5) =
    2975 / 808 * scale cfgC2 from by ring]

/-- Perspective scale at the first inset corner of cell `(4,0)`. -/
lemma cfgC2_sigma0 :
    persScale cfgC2 (rawMaxY cfgC2 -
      ((4 + 0.05) * basisXy cfgC2 + (0 + 0.05) * basisYy cfgC2)) =
      14875 / 25056 := by
  rw [persScale_eq_of_focal cfgC2 (2975 / 808 * scale cfgC2) cfgC2_focal]
  rw [cfgC2_rawMaxY, cfgC2_basisXy, cfgC2_basisYy]
  rw [show 2975 / 808 * scale cfgC2 +
      (595 / 202 * scale cfgC2 -
        ((4 + 0.05) * (10 / 101 * scale cfgC2) +
          (0 + 0.05) * (99 / 202 * scale cfgC2))) =
      3132 / 505 * scale cfgC2 from by ring]
  rw [div_eq_iff (ne_of_gt (by nlinarith [cfgC2_scale_pos]))]
  ring

/-- Perspective scale at the second inset corner of cell `(4,0)`. -/
lemma cfgC2_sigma1 :
    persScale cfgC2 (rawMaxY cfgC2 -
      ((4 + 1 - 0.05) * basisXy cfgC2 + (0 + 0.05) * basisYy cfgC2)) =
      2125 / 3528 := by
  rw [persScale_eq_of_focal cfgC2 (2975 / 808 * scale cfgC2) cfgC2_focal]
  rw [cfgC2_rawMaxY, cfgC2_basisXy, cfgC2_basisYy]
  rw [show 2975 / 808 * scale cfgC2 +
      (595 / 202 * scale cfgC2 -
        ((4 + 1 - 0.05) * (10 / 101 * scale cfgC2) +
          (0 + 0.05) * (99 / 202 * scale cfgC2))) =
      3087 / 505 * scale cfgC2 from by ring]
  rw [div_eq_iff (ne_of_gt (by nlinarith [cfgC2_scale_pos]))]
  ring

/-- Perspective scale at the third inset corner of cell `(4,0)`. -/
lemma cfgC2_sigma2 :
    persScale cfgC2 (rawMaxY cfgC2 -
      ((4 + 1 - 0.05) * basisXy cfgC2 + (0 + 1 - 0.05) * basisYy cfgC2)) =
      14875 / 22914 := by
  rw [persScale_eq_of_focal cfgC2 (2975 / 808 * scale cfgC2) cfgC2_focal]
  rw [cfgC2_rawMaxY, cfgC2_basisXy, cfgC2_basisYy]
  rw [show 2975 / 808 * scale cfgC2 +
      (595 / 202 * scale cfgC2 -
        ((4 + 1 - 0.05) * (10 / 101 * scale cfgC2) +
          (0 + 1 - 0.05) * (99 / 202 * scale cfgC2))) =
      11457 / 2020 * scale cfgC2 from by ring]
  rw [div_eq_iff (ne_of_gt (by nlinarith [cfgC2_scale_pos]))]
  ring

/-- Perspective scale at the fourth inset corner of cell `(4,0)`. -/
lemma cfgC2_sigma3 :
    persScale cfgC2 (rawMaxY cfgC2 -
      ((4 + 0.05) * basisXy cfgC2 + (0 + 1 - 0.05) * basisYy cfgC2)) =
      14875 / 23274 := by
  rw [persScale_eq_of_focal cfgC2 (2975 / 808 * scale cfgC2) cfgC2_focal]
  rw [cfgC2_rawMaxY, cfgC2_basisXy, cfgC2_basisYy]
  rw [show 2975 / 808 * scale cfgC2 +
      (595 / 202 * scale cfgC2 -
        ((4 + 0.05) * (10 / 101 * scale cfgC2) +
          (0 + 1 - 0.05) * (99 / 202 * scale cfgC2))) =
      11637 / 2020 * scale cfgC2 from by ring]
  rw [div_eq_iff (ne_of_gt (by nlinarith [cfgC2_scale_pos]))]
  ring

/-- At the counterexample configuration, corner 0 of cell `(4,0)` projects
strictly left of corner 1. -/
lemma cfgC2_x01 :
    (blockCorner cfgC2 4 0 0).1 < (blockCorner cfgC2 4 0 1).1 := by
  rw [blockCorner_zero, blockCorner_one]
  unfold toIso
  dsimp only
  rw [cfgC2_sigma0, cfgC2_sigma1, cfgC2_rawCenterX, cfgC2_basisXx,
    cfgC2_basisYx]
  linarith [cfgC2_scale_pos]

/-- At the counterexample configuration, corner 1 of cell `(4,0)` projects
strictly left of corner 2. -/
lemma cfgC2_x12 :
    (blockCorner cfgC2 4 0 1).1 < (blockCorner cfgC2 4 0 2).1 := by
  rw [blockCorner_one, blockCorner_two]
  unfold toIso
  dsimp only
  rw [cfgC2_sigma1, cfgC2_sigma2, cfgC2_rawCenterX, cfgC2_basisXx,
    cfgC2_basisYx]
  linarith [cfgC2_scale_pos]

/-- At the counterexample configuration, corner 3 of cell `(4,0)` projects
strictly left of corner 2. -/
lemma cfgC2_x32 :
    (blockCorner cfgC2 4 0 3).1 < (blockCorner cfgC2 4 0 2).1 := by
  rw [blockCorner_three, blockCorner_two]
  unfold toIso
  dsimp only
  rw [cfgC2_sigma3, cfgC2_sigma2, cfgC2_rawCenterX, cfgC2_basisXx,
    cfgC2_basisYx]
  linarith [cfgC2_scale_pos]

/-- At the counterexample configuration, corner 3 of cell `(4,0)` projects
strictly left of corner 0. -/
lemma cfgC2_x30 :
    (blockCorner cfgC2 4 0 3).1 < (blockCorner cfgC2 4 0 0).1 := by
  rw [blockCorner_three, blockCorner_zero]
  unfold toIso
  dsimp only
  rw [cfgC2_sigma3, cfgC2_sigma0, cfgC2_rawCenterX, cfgC2_basisXx,
    cfgC2_basisYx]
  linarith [cfgC2_scale_pos]

/-- Counterexample to C2: at angle `2 * arctan (1/10)` with perspective
strength `0.8`, grid size `5` and window width `1070`, the face
classification of cell `(4,0)` yields 1 front-facing and 3 back-facing
edges (and no degenerate edge), not 2 and 2. -/
theorem c2_face_classification_counterexample :
    (frontFaces cfgC2 4 0).length = 1 ∧ (backFaces cfgC2 4 0).length = 3 := by
  have hrange : List.range 4 = [0, 1, 2, 3] := rfl
  constructor
  · unfold frontFaces
    rw [hrange, length_filter_four, edgeFront_eq_false (asymm cfgC2_x01),
      edgeFront_eq_false (asymm cfgC2_x12), edgeFront_eq_true cfgC2_x32,
      edgeFront_eq_false (asymm cfgC2_x30)]
    norm_num
  · unfold backFaces
    rw [hrange, length_filter_four, edgeBack_eq_true cfgC2_x01,
      edgeBack_eq_true cfgC2_x12, edgeBack_eq_false (asymm cfgC2_x32),
      edgeBack_eq_true cfgC2_x30]
    norm_num

/-- Witness for the amended C2 at a concrete orthographic configuration. -/
theorem c2_face_classification_two_two_witness :
    cfgOrtho.perspectiveStrength = 0 ∧ basisXx cfgOrtho ≠ 0 ∧
      basisYx cfgOrtho ≠ 0 ∧
      ((frontFaces cfgOrtho 3 7).length = 2 ∧
        (backFaces cfgOrtho 3 7).length = 2) := by
  have hS : 0 < scale cfgOrtho := scale_pos cfgOrtho (by norm_num [cfgOrtho])
  have hx : basisXx cfgOrtho ≠ 0 := by
    unfold basisXx
    rw [show cfgOrtho.isoAngle = Real.pi / 3 from rfl, Real.cos_pi_div_three]
    exact ne_of_gt (by nlinarith [hS])
  have hy : basisYx cfgOrtho ≠ 0 := by
    unfold basisYx
    rw [show cfgOrtho.isoAngle = Real.pi / 3 from rfl, Real.sin_pi_div_three]
    have h3 : (0 : ℝ) < Real.sqrt 3 := Real.sqrt_pos.2 (by norm_num)
    exact ne_of_lt (by nlinarith [hS, h3])
  exact ⟨rfl, hx, hy, c2_face_classification_two_two cfgOrtho rfl hx hy 3 7⟩

/-- Witness for C9: a dense grid at the minimum viewport width falls below
the threshold, and no grid line is drawn. -/
theorem c9_gridline_threshold_witness :
    |basisXx cfgDense| + |basisYx cfgDense| < 5 ∧ drawGridLines cfgDense = [] := by
  have hS : 0 < scale cfgDense := scale_pos cfgDense (by norm_num [cfgDense])
  have hW : isoWidth cfgDense = 300 := by
    unfold isoWidth getIsoWidth ISO_MIN_WIDTH ISO_MAX_WIDTH
    rw [show cfgDense.windowInnerWidth = 370 from rfl,
      show (370 : ℝ) - 70 = 300 from by norm_num]
    rw [min_eq_left (by norm_num), max_eq_right (by norm_num)]
  have hsq1 : (1 : ℝ) ≤ Real.sqrt 2 := by
    nlinarith [Real.sq_sqrt (show (0 : ℝ) ≤ 2 by norm_num), Real.sqrt_nonneg 2]
  have hSlt : scale cfgDense < 5 := by
    unfold scale
    rw [hW, show ((cfgDense.gridSize : ℕ) : ℝ) = 100 from by norm_num [cfgDense]]
    rw [div_lt_iff (by positivity)]
    nlinarith [hsq1]
  have hcond : |basisXx cfgDense| + |basisYx cfgDense| < 5 := by
    unfold basisXx basisYx
    rw [show cfgDense.isoAngle = 0 from rfl, Real.cos_zero, Real.sin_zero]
    rw [one_mul, neg_zero, zero_mul, abs_zero, abs_of_pos hS]
    linarith [hSlt]
  exact ⟨hcond, (c9_gridline_threshold cfgDense).1 hcond⟩
